import Mathlib

/-!
Verification of the SORA collection-and-persistence pipeline.

The definitions below are a shallow embedding of the Python source:
`features/collection/collector.py` (PaperCollector, AsyncPaperManager),
`features/collection/pdf_manager.py` (AsyncPDFManager),
`features/shared/database.py` (Paper.validate_metadata), and `main.py`.
Database rows are lists of records, the SQLAlchemy session is explicit
state, network calls are oracles passed as functions, and Python
exceptions are the corresponding control-flow branches.
-/

namespace Sora

/-- JSON-like values held in a paper's metadata mapping. -/
inductive JsonVal where
  | null
  | str (s : String)
  | arr (l : List String)
deriving DecidableEq, Repr

/-- One row of the `papers` table (features/shared/database.py, class Paper).
Columns not touched by any claim (added_date, processed_metadata,
organized_paths) are omitted; `date` is kept abstract as an optional string. -/
structure Paper where
  id : Nat
  title : String
  authors : List String := []
  abstract : Option String := none
  url : Option String := none
  pdf_path : Option String := none
  source : String := "arxiv"
  doi : Option String := none
  journal : Option String := none
  paper_metadata : List (String × JsonVal) := []
  processed : Nat := 0
  organized : Nat := 0
deriving DecidableEq, Repr

/-- Loop body of `AsyncPaperManager.deduplicate_papers`: walk the batch,
keep a seen-title set, append first occurrences to the accumulator. -/
def dedupLoop : List Paper → List String → List Paper → List Paper
  | [], _, unique => unique
  | p :: rest, seen, unique =>
    if p.title ∈ seen then dedupLoop rest seen unique
    else dedupLoop rest (p.title :: seen) (unique ++ [p])

/-- `AsyncPaperManager.deduplicate_papers` (collector.py:284-294): remove
duplicate papers based on title, first occurrence wins. -/
def deduplicate_papers (papers : List Paper) : List Paper :=
  dedupLoop papers [] []

/-- Accumulator-free form of the dedup loop, used for the proofs. -/
def dedupF : List Paper → List String → List Paper
  | [], _ => []
  | p :: rest, seen =>
    if p.title ∈ seen then dedupF rest seen
    else p :: dedupF rest (p.title :: seen)

theorem dedupLoop_eq (papers : List Paper) :
    ∀ seen unique, dedupLoop papers seen unique = unique ++ dedupF papers seen := by
  induction papers with
  | nil => intro seen unique; simp [dedupLoop, dedupF]
  | cons p rest ih =>
    intro seen unique
    by_cases h : p.title ∈ seen
    · simp [dedupLoop, dedupF, h, ih]
    · simp [dedupLoop, dedupF, h, ih]

theorem dedupF_sublist (papers : List Paper) :
    ∀ seen, (dedupF papers seen).Sublist papers := by
  induction papers with
  | nil => intro seen; simp [dedupF]
  | cons p rest ih =>
    intro seen
    by_cases h : p.title ∈ seen
    · simp only [dedupF, if_pos h]
      exact (ih seen).cons p
    · simp only [dedupF, if_neg h]
      exact (ih (p.title :: seen)).cons₂ p

theorem mem_dedupF_title (papers : List Paper) :
    ∀ seen t, t ∈ (dedupF papers seen).map Paper.title →
      t ∉ seen ∧ t ∈ papers.map Paper.title := by
  induction papers with
  | nil => intro seen t h; simp [dedupF] at h
  | cons p rest ih =>
    intro seen t h
    by_cases hp : p.title ∈ seen
    · simp only [dedupF, if_pos hp] at h
      obtain ⟨hns, hmem⟩ := ih seen t h
      exact ⟨hns, by simp [hmem]⟩
    · simp only [dedupF, if_neg hp, List.map_cons, List.mem_cons] at h
      rcases h with h | h
      · subst h; exact ⟨hp, by simp⟩
      · obtain ⟨hns, hmem⟩ := ih (p.title :: seen) t h
        refine ⟨fun hc => hns (List.mem_cons_of_mem _ hc), by simp [hmem]⟩

theorem dedupF_titles_nodup (papers : List Paper) :
    ∀ seen, ((dedupF papers seen).map Paper.title).Nodup := by
  induction papers with
  | nil => intro seen; simp [dedupF]
  | cons p rest ih =>
    intro seen
    by_cases hp : p.title ∈ seen
    · simp only [dedupF, if_pos hp]; exact ih seen
    · simp only [dedupF, if_neg hp, List.map_cons, List.nodup_cons]
      refine ⟨fun hc => ?_, ih (p.title :: seen)⟩
      exact (mem_dedupF_title rest (p.title :: seen) p.title hc).1 (List.mem_cons_self _ _)

theorem dedupF_covers (papers : List Paper) :
    ∀ seen p, p ∈ papers → p.title ∉ seen →
      ∃ q ∈ dedupF papers seen, q.title = p.title := by
  induction papers with
  | nil => intro seen p h; simp at h
  | cons a rest ih =>
    intro seen p hmem hns
    rcases List.mem_cons.mp hmem with h | h
    · subst h
      simp only [dedupF, if_neg hns]
      exact ⟨p, List.mem_cons_self _ _, rfl⟩
    · by_cases ha : a.title ∈ seen
      · simp only [dedupF, if_pos ha]
        exact ih seen p h hns
      · simp only [dedupF, if_neg ha]
        by_cases hpa : p.title = a.title
        · exact ⟨a, List.mem_cons_self _ _, hpa.symm⟩
        · obtain ⟨q, hq, hqt⟩ := ih (a.title :: seen) p h
            (by simp [hpa, hns])
          exact ⟨q, List.mem_cons_of_mem _ hq, hqt⟩

theorem dedupF_find (papers : List Paper) :
    ∀ seen t, t ∉ seen →
      (dedupF papers seen).find? (fun q => q.title == t) =
        papers.find? (fun q => q.title == t) := by
  induction papers with
  | nil => intro seen t _; simp [dedupF]
  | cons p rest ih =>
    intro seen t ht
    by_cases hpt : p.title = t
    · have hps : p.title ∉ seen := by rw [hpt]; exact ht
      simp only [dedupF, if_neg hps]
      rw [List.find?_cons_of_pos _ (by simp [hpt]),
        List.find?_cons_of_pos _ (by simp [hpt])]
    · by_cases hp : p.title ∈ seen
      · simp only [dedupF, if_pos hp]
        rw [ih seen t ht, List.find?_cons_of_neg _ (by simp [hpt])]
      · simp only [dedupF, if_neg hp]
        rw [List.find?_cons_of_neg _ (by simp [hpt]),
          List.find?_cons_of_neg _ (by simp [hpt])]
        refine ih (p.title :: seen) t ?_
        intro hc
        rcases List.mem_cons.mp hc with hc | hc
        · exact hpt hc.symm
        · exact ht hc

/-- C1: deduplication keyed by the record title keeps exactly one record per
distinct title — the output is an order-preserving subsequence of the input,
its titles are pairwise distinct, every input title is represented, and the
representative of each title is the first record of the input carrying it. -/
theorem c1_dedup_first_occurrence (papers : List Paper) :
    (deduplicate_papers papers).Sublist papers ∧
    ((deduplicate_papers papers).map Paper.title).Nodup ∧
    (∀ p ∈ papers, ∃ q ∈ deduplicate_papers papers, q.title = p.title) ∧
    (∀ t, (deduplicate_papers papers).find? (fun q => q.title == t) =
      papers.find? (fun q => q.title == t)) := by
  unfold deduplicate_papers
  rw [dedupLoop_eq papers [] []]
  refine ⟨by simpa using dedupF_sublist papers [], by simpa using dedupF_titles_nodup papers [],
    ?_, ?_⟩
  · intro p hp
    simpa using dedupF_covers papers [] p hp (by simp)
  · intro t
    simpa using dedupF_find papers [] t (by simp)

/-- Witness for C1 at a concrete batch with a duplicated title. -/
theorem c1_dedup_first_occurrence_witness :
    ∃ q ∈ deduplicate_papers
      [{ id := 1, title := "X" }, { id := 2, title := "Y" }, { id := 3, title := "X" }],
      q.title = Paper.title { id := 3, title := "X" } := by
  have h := c1_dedup_first_occurrence
    [{ id := 1, title := "X" }, { id := 2, title := "Y" }, { id := 3, title := "X" }]
  exact h.2.2.1 { id := 3, title := "X" } (by simp)

/-- A calendar date, the result of a successful Python `datetime.strptime`. -/
structure PyDate where
  year : Nat
  month : Nat
  day : Nat
deriving DecidableEq, Repr

/-- Numeric value of a decimal digit character. -/
def digitVal (c : Char) : Nat := c.toNat - 48

/-- CPython strptime directive %Y: exactly four decimal digits. -/
def matchY : List Char → Option (Nat × List Char)
  | a :: b :: c :: d :: rest =>
    if a.isDigit && b.isDigit && c.isDigit && d.isDigit then
      some (digitVal a * 1000 + digitVal b * 100 + digitVal c * 10 + digitVal d, rest)
    else none
  | _ => none

/-- CPython strptime directive %m: regex 1[0-2] or 0[1-9] or [1-9]. -/
def matchMonth : List Char → Option (Nat × List Char)
  | [] => none
  | [a] => if a.isDigit && 1 ≤ digitVal a then some (digitVal a, []) else none
  | a :: b :: rest =>
    if a = '1' && b.isDigit && digitVal b ≤ 2 then some (10 + digitVal b, rest)
    else if a = '0' && b.isDigit && 1 ≤ digitVal b then some (digitVal b, rest)
    else if a.isDigit && 1 ≤ digitVal a then some (digitVal a, b :: rest)
    else none

/-- CPython strptime directive %d: regex 3[01] or [12]\d or 0[1-9] or [1-9]. -/
def matchDay : List Char → Option (Nat × List Char)
  | [] => none
  | [a] => if a.isDigit && 1 ≤ digitVal a then some (digitVal a, []) else none
  | a :: b :: rest =>
    if a = '3' && (b = '0' || b = '1') then some (30 + digitVal b, rest)
    else if (a = '1' || a = '2') && b.isDigit then some (digitVal a * 10 + digitVal b, rest)
    else if a = '0' && b.isDigit && 1 ≤ digitVal b then some (digitVal b, rest)
    else if a.isDigit && 1 ≤ digitVal a then some (digitVal a, b :: rest)
    else none

/-- Literal dash in a strptime format string. -/
def matchDash : List Char → Option (List Char)
  | c :: rest => if c = '-' then some rest else none
  | [] => none

/-- Gregorian leap-year rule used by Python's datetime. -/
def isLeap (y : Nat) : Bool := (y % 4 = 0 && y % 100 ≠ 0) || y % 400 = 0

/-- Number of days in a month, as validated by the datetime constructor. -/
def daysInMonth (y m : Nat) : Nat :=
  if m = 2 then (if isLeap y then 29 else 28)
  else if m = 4 || m = 6 || m = 9 || m = 11 then 30
  else 31

/-- Range validation done by the Python `datetime` constructor. -/
def mkDate (y m d : Nat) : Option PyDate :=
  if 1 ≤ y && y ≤ 9999 && 1 ≤ m && m ≤ 12 && 1 ≤ d && d ≤ daysInMonth y m then
    some ⟨y, m, d⟩
  else none

/-- Python `datetime.strptime(s, "%Y-%m-%d")`; `none` models ValueError. -/
def strptimeYMD (s : String) : Option PyDate :=
  match matchY s.toList with
  | none => none
  | some (y, r1) =>
    match matchDash r1 with
    | none => none
    | some r2 =>
      match matchMonth r2 with
      | none => none
      | some (m, r3) =>
        match matchDash r3 with
        | none => none
        | some r4 =>
          match matchDay r4 with
          | none => none
          | some (d, r5) => if r5 = [] then mkDate y m d else none

/-- Python `datetime.strptime(s, "%Y-%m")`; `none` models ValueError. -/
def strptimeYM (s : String) : Option PyDate :=
  match matchY s.toList with
  | none => none
  | some (y, r1) =>
    match matchDash r1 with
    | none => none
    | some r2 =>
      match matchMonth r2 with
      | none => none
      | some (m, r3) => if r3 = [] then mkDate y m 1 else none

/-- Python `datetime.strptime(s, "%Y")`; `none` models ValueError. -/
def strptimeY (s : String) : Option PyDate :=
  match matchY s.toList with
  | none => none
  | some (y, r1) => if r1 = [] then mkDate y 1 1 else none

/-- Python slice `s[:n]`. -/
def pySlice (s : String) (n : Nat) : String := ⟨s.toList.take n⟩

/-- `PaperCollector._parse_date` (collector.py:124-137). The source tries the
formats in order but slices the input to `len(fmt)` characters first — the
length of the FORMAT string (8, 5 and 2 respectively), not of a date of that
shape — and falls back to `now` when nothing parses or the input is absent
or empty. -/
def parse_date (dateStr : Option String) (now : PyDate) : PyDate :=
  match dateStr with
  | none => now
  | some s =>
    if s = "" then now
    else
      match strptimeYMD (pySlice s 8) with
      | some d => d
      | none =>
        match strptimeYM (pySlice s 5) with
        | some d => d
        | none =>
          match strptimeY (pySlice s 2) with
          | some d => d
          | none => now

/-- Spec-side date parser, following the words of the spec: attempt the whole
input against YYYY-MM-DD, then YYYY-MM, then YYYY; first success wins; fall
back to `now` only when all three fail or the input is absent. -/
def parse_date_spec (dateStr : Option String) (now : PyDate) : PyDate :=
  match dateStr with
  | none => now
  | some s =>
    if s = "" then now
    else
      match strptimeYMD s with
      | some d => d
      | none =>
        match strptimeYM s with
        | some d => d
        | none =>
          match strptimeY s with
          | some d => d
          | none => now

/-- C8: the full date "2023-01-15" is a well-formed YYYY-MM-DD input — the
format itself parses it, and the spec-side parser returns the calendar date —
yet the code slices the input to the length of each format string (8, 5, 2
characters), every attempt fails, and the result is the current time. -/
theorem c8_parse_date_truncation_bug (now : PyDate) :
    strptimeYMD "2023-01-15" = some ⟨2023, 1, 15⟩ ∧
    parse_date_spec (some "2023-01-15") now = ⟨2023, 1, 15⟩ ∧
    parse_date (some "2023-01-15") now = now := by
  refine ⟨by decide, ?_, ?_⟩
  · simp only [parse_date_spec]
    rw [if_neg (by decide),
      show strptimeYMD "2023-01-15" = some ⟨2023, 1, 15⟩ from by decide]
  · simp only [parse_date]
    rw [if_neg (by decide),
      show strptimeYMD (pySlice "2023-01-15" 8) = none from by decide,
      show strptimeYM (pySlice "2023-01-15" 5) = none from by decide,
      show strptimeY (pySlice "2023-01-15" 2) = none from by decide]

/-- Per-title status recorded by `AsyncPaperManager.get_existing_papers`. -/
structure PaperStatus where
  id : Nat
  has_pdf : Bool
  processed : Nat
deriving DecidableEq, Repr

/-- `AsyncPaperManager.get_existing_papers` (collector.py:304-319): a dict
from title to status built by iterating the table; a later row with the same
title overwrites an earlier one, so lookup yields the last matching row. -/
def get_existing_papers (store : List Paper) : String → Option PaperStatus :=
  fun t =>
    ((store.filter (fun p => p.title == t)).getLast?).map
      (fun p => ⟨p.id, p.pdf_path.isSome, p.processed⟩)

theorem get_existing_papers_eq_none (store : List Paper) (t : String) :
    get_existing_papers store t = none ↔ t ∉ store.map Paper.title := by
  simp only [get_existing_papers, Option.map_eq_none', List.getLast?_eq_none_iff,
    List.filter_eq_nil_iff, beq_iff_eq, List.mem_map, not_exists, not_and]

/-- Session state inside one `store_papers` run: `work` is the store as seen
by the open transaction (committed rows plus pending inserts and deletes),
`stored` the Python list returned to the caller, `seen` the intra-batch
title set, `skips` the number of printed duplicate-with-PDF skips. -/
structure PersistState where
  work : List Paper
  stored : List Paper
  seen : List String
  skips : Nat
deriving DecidableEq, Repr

/-- One iteration of the loop in `AsyncPaperManager.store_papers`
(collector.py:232-255). An intra-batch duplicate title is passed over
silently; otherwise the snapshot decides: absent → insert (raising a
unique-title IntegrityError at flush when the transaction view already holds
the title, whose handler rolls the session back to `store0` and continues);
present without PDF under force-update → delete the old rows then insert;
present otherwise → count one observable skip. -/
def persistStep (force : Bool) (existing : String → Option PaperStatus)
    (store0 : List Paper) (st : PersistState) (p : Paper) : PersistState :=
  if p.title ∈ st.seen then st
  else
    match existing p.title with
    | none =>
      if p.title ∈ st.work.map Paper.title then
        { work := store0, stored := st.stored, seen := p.title :: st.seen,
          skips := st.skips }
      else
        { work := st.work ++ [p], stored := st.stored ++ [p],
          seen := p.title :: st.seen, skips := st.skips }
    | some status =>
      if !status.has_pdf && force then
        { work := st.work.filter (fun q => !(q.title == p.title)) ++ [p],
          stored := st.stored ++ [p], seen := p.title :: st.seen,
          skips := st.skips }
      else
        { st with seen := p.title :: st.seen, skips := st.skips + 1 }

/-- `AsyncPaperManager.store_papers` (collector.py:226-264): fold the batch
through `persistStep` over one session and commit at the end; a failing
commit rolls the whole transaction back and returns the empty list. Result:
(table after the run, returned stored list, observable skip count). -/
def store_papers (force commitFails : Bool) (papers : List Paper)
    (existing : String → Option PaperStatus) (store0 : List Paper) :
    List Paper × List Paper × Nat :=
  let final := papers.foldl (persistStep force existing store0)
    ⟨store0, [], [], 0⟩
  if commitFails then (store0, [], final.skips)
  else (final.work, final.stored, final.skips)

/-- C2: with the snapshot taken from the store, a single-record PERSIST
stores a snapshot-absent record; replaces a stored artifact-less record when
force-update is set, leaving exactly one row with the incoming record's
fields; and skips — storing nothing and reporting one skip — when the stored
record has an artifact or force-update is unset. -/
theorem c2_persist_policy (force : Bool) (store0 : List Paper) (p : Paper) :
    (get_existing_papers store0 p.title = none →
      store_papers force false [p] (get_existing_papers store0) store0 =
        (store0 ++ [p], [p], 0)) ∧
    (∀ st, get_existing_papers store0 p.title = some st → st.has_pdf = false →
      force = true →
      store_papers force false [p] (get_existing_papers store0) store0 =
        (store0.filter (fun q => !(q.title == p.title)) ++ [p], [p], 0) ∧
      (store0.filter (fun q => !(q.title == p.title)) ++ [p]).filter
        (fun q => q.title == p.title) = [p]) ∧
    (∀ st, get_existing_papers store0 p.title = some st →
      (st.has_pdf = true ∨ force = false) →
      store_papers force false [p] (get_existing_papers store0) store0 =
        (store0, [], 1)) := by
  refine ⟨?_, ?_, ?_⟩
  · intro h
    have hmem : p.title ∉ store0.map Paper.title :=
      (get_existing_papers_eq_none store0 p.title).mp h
    simp [store_papers, persistStep, h, hmem]
  · intro st h hpdf hforce
    constructor
    · simp [store_papers, persistStep, h, hpdf, hforce]
    · rw [List.filter_append]
      rw [List.filter_filter]
      simp
  · intro st h hcase
    rcases hcase with hpdf | hforce
    · simp [store_papers, persistStep, h, hpdf]
    · simp [store_papers, persistStep, h, hforce]

/-- Witness for C2: the spec scenario — the store holds an artifacted "X",
the batch offers a fresh "X" with force-update unset; PERSIST stores nothing
and reports exactly one skip. -/
theorem c2_persist_policy_witness :
    store_papers false false [{ id := 0, title := "X", authors := ["a"] }]
      (get_existing_papers [{ id := 1, title := "X", pdf_path := some "1.pdf" }])
      [{ id := 1, title := "X", pdf_path := some "1.pdf" }] =
      ([{ id := 1, title := "X", pdf_path := some "1.pdf" }], [], 1) := by
  have h := c2_persist_policy false
    [{ id := 1, title := "X", pdf_path := some "1.pdf" }]
    { id := 0, title := "X", authors := ["a"] }
  exact h.2.2 ⟨1, true, 0⟩ (by decide) (Or.inl rfl)

/-- C3 counterexample: store holds "X" but the snapshot is the one in which
that insert raced ahead of it (the unique-identity-violation situation the
claim is about). The batch offers a colliding "X" and a fresh "Y": the
collision raises, its handler rolls back and continues, "Y" is inserted and
committed. The store changes and PERSIST returns a non-empty list — not the
whole-batch rollback with empty result the claim states. -/
theorem c3_counterexample :
    store_papers false false
      [{ id := 0, title := "X", authors := ["a"] }, { id := 0, title := "Y" }]
      (fun _ => none) [{ id := 1, title := "X" }] =
      ([{ id := 1, title := "X" }, { id := 0, title := "Y" }],
        [{ id := 0, title := "Y" }], 0) ∧
    ([{ id := 1, title := "X" }, { id := 0, title := "Y" }] ≠
      [({ id := 1, title := "X" } : Paper)]) ∧
    ([({ id := 0, title := "Y" } : Paper)] ≠ []) := by
  refine ⟨by decide, by decide, by decide⟩

/-- C3 amended: the transactional half of the claim that the code does give —
when the final batch commit fails, the whole run rolls back: the store is
returned unchanged and PERSIST yields the empty sequence. (Per-record
integrity failures, by contrast, only reset the pending session state and
the loop continues with later records.) -/
theorem c3_commit_failure_rolls_back (force : Bool) (papers : List Paper)
    (existing : String → Option PaperStatus) (store0 : List Paper) :
    (store_papers force true papers existing store0).1 = store0 ∧
    (store_papers force true papers existing store0).2.1 = [] := by
  simp [store_papers]

/-- Invariant of a `store_papers` session run against an accurate snapshot:
every title already handled is present in the transaction view, every title
of the initial table stays present, and the transaction view holds no title
that is neither initial nor handled. -/
def PersistInv (store0 : List Paper) (st : PersistState) : Prop :=
  (∀ t ∈ st.seen, t ∈ st.work.map Paper.title) ∧
  (∀ t ∈ store0.map Paper.title, t ∈ st.work.map Paper.title) ∧
  (∀ t ∈ st.work.map Paper.title, t ∈ store0.map Paper.title ∨ t ∈ st.seen)

theorem title_mem_filter_of_ne {t s : String} {l : List Paper}
    (hne : t ≠ s) (h : t ∈ l.map Paper.title) :
    t ∈ (l.filter (fun q => !(q.title == s))).map Paper.title := by
  obtain ⟨q, hq, hqt⟩ := List.mem_map.mp h
  refine List.mem_map.mpr ⟨q, List.mem_filter.mpr ⟨hq, ?_⟩, hqt⟩
  simp [hqt, hne]

theorem persistStep_inv (force : Bool) (store0 : List Paper)
    (st : PersistState) (p : Paper) (h : PersistInv store0 st) :
    PersistInv store0
      (persistStep force (get_existing_papers store0) store0 st p) := by
  obtain ⟨h1, h2, h3⟩ := h
  unfold persistStep
  by_cases hseen : p.title ∈ st.seen
  · simpa [hseen] using ⟨h1, h2, h3⟩
  · simp only [if_neg hseen]
    cases hex : get_existing_papers store0 p.title with
    | none =>
      have hns : p.title ∉ store0.map Paper.title :=
        (get_existing_papers_eq_none store0 p.title).mp hex
      have hnw : p.title ∉ st.work.map Paper.title := by
        intro hw
        rcases h3 _ hw with hc | hc
        · exact hns hc
        · exact hseen hc
      simp only [if_neg hnw]
      refine ⟨?_, ?_, ?_⟩
      · intro t ht
        rcases List.mem_cons.mp ht with ht | ht
        · subst ht; simp
        · have := h1 t ht
          simp only [List.map_append, List.mem_append]
          exact Or.inl this
      · intro t ht
        have := h2 t ht
        simp only [List.map_append, List.mem_append]
        exact Or.inl this
      · intro t ht
        simp only [List.map_append, List.mem_append] at ht
        rcases ht with ht | ht
        · rcases h3 t ht with hc | hc
          · exact Or.inl hc
          · exact Or.inr (List.mem_cons_of_mem _ hc)
        · simp only [List.map_cons, List.map_nil, List.mem_singleton] at ht
          subst ht
          exact Or.inr (List.mem_cons_self _ _)
    | some status =>
      have hps : p.title ∈ store0.map Paper.title := by
        by_contra hc
        rw [← get_existing_papers_eq_none store0 p.title] at hc
        rw [hex] at hc
        exact Option.noConfusion hc
      by_cases hrep : !status.has_pdf && force
      · simp only [if_pos hrep]
        refine ⟨?_, ?_, ?_⟩
        · intro t ht
          simp only [List.map_append, List.mem_append]
          rcases List.mem_cons.mp ht with ht | ht
          · subst ht; simp
          · by_cases hts : t = p.title
            · subst hts; simp
            · exact Or.inl (title_mem_filter_of_ne hts (h1 t ht))
        · intro t ht
          simp only [List.map_append, List.mem_append]
          by_cases hts : t = p.title
          · subst hts; simp
          · exact Or.inl (title_mem_filter_of_ne hts (h2 t ht))
        · intro t ht
          simp only [List.map_append, List.mem_append] at ht
          rcases ht with ht | ht
          · obtain ⟨q, hq, hqt⟩ := List.mem_map.mp ht
            have hqmem := (List.mem_filter.mp hq).1
            rcases h3 t (List.mem_map.mpr ⟨q, hqmem, hqt⟩) with hc | hc
            · exact Or.inl hc
            · exact Or.inr (List.mem_cons_of_mem _ hc)
          · simp only [List.map_cons, List.map_nil, List.mem_singleton] at ht
            subst ht
            exact Or.inl hps
      · simp only [if_neg hrep]
        refine ⟨?_, h2, ?_⟩
        · intro t ht
          rcases List.mem_cons.mp ht with ht | ht
          · subst ht; exact h2 _ hps
          · exact h1 t ht
        · intro t ht
          rcases h3 t ht with hc | hc
          · exact Or.inl hc
          · exact Or.inr (List.mem_cons_of_mem _ hc)

theorem persistFold_inv (force : Bool) (store0 : List Paper)
    (papers : List Paper) :
    ∀ st, PersistInv store0 st →
      PersistInv store0 (papers.foldl
        (persistStep force (get_existing_papers store0) store0) st) := by
  induction papers with
  | nil => intro st h; simpa using h
  | cons p rest ih =>
    intro st h
    simpa [List.foldl_cons] using
      ih _ (persistStep_inv force store0 st p h)

theorem persistStep_seen_mono (force : Bool)
    (existing : String → Option PaperStatus) (store0 : List Paper)
    (st : PersistState) (p : Paper) :
    st.seen ⊆ (persistStep force existing store0 st p).seen := by
  unfold persistStep
  by_cases hseen : p.title ∈ st.seen
  · simp [hseen]
  · simp only [if_neg hseen]
    cases existing p.title with
    | none =>
      by_cases hw : p.title ∈ st.work.map Paper.title
      · simp only [if_pos hw]
        exact List.subset_cons_self _ _
      · simp only [if_neg hw]
        exact List.subset_cons_self _ _
    | some status =>
      by_cases hrep : !status.has_pdf && force
      · simp only [if_pos hrep]
        exact List.subset_cons_self _ _
      · simp only [if_neg hrep]
        exact List.subset_cons_self _ _

theorem persistStep_seen_self (force : Bool)
    (existing : String → Option PaperStatus) (store0 : List Paper)
    (st : PersistState) (p : Paper) :
    p.title ∈ (persistStep force existing store0 st p).seen := by
  unfold persistStep
  by_cases hseen : p.title ∈ st.seen
  · simp [hseen]
  · simp only [if_neg hseen]
    cases existing p.title with
    | none =>
      by_cases hw : p.title ∈ st.work.map Paper.title
      · simp [hw]
      · simp [hw]
    | some status =>
      by_cases hrep : !status.has_pdf && force
      · simp [hrep]
      · simp [hrep]

theorem persistFold_seen_mono (force : Bool)
    (existing : String → Option PaperStatus) (store0 : List Paper)
    (papers : List Paper) :
    ∀ st, st.seen ⊆
      (papers.foldl (persistStep force existing store0) st).seen := by
  induction papers with
  | nil => intro st; simp
  | cons p rest ih =>
    intro st
    exact (persistStep_seen_mono force existing store0 st p).trans
      (by simpa [List.foldl_cons] using ih (persistStep force existing store0 st p))

theorem persistFold_seen_covers (force : Bool)
    (existing : String → Option PaperStatus) (store0 : List Paper)
    (papers : List Paper) :
    ∀ st p, p ∈ papers →
      p.title ∈ (papers.foldl (persistStep force existing store0) st).seen := by
  induction papers with
  | nil => intro st p h; simp at h
  | cons a rest ih =>
    intro st p hmem
    rcases List.mem_cons.mp hmem with h | h
    · subst h
      exact persistFold_seen_mono force existing store0 rest _
        (persistStep_seen_self force existing store0 st p)
    · simpa [List.foldl_cons] using ih (persistStep force existing store0 st a) p h

theorem persistFold_no_new_stores
    (existing : String → Option PaperStatus) (store0 : List Paper)
    (papers : List Paper) :
    ∀ st, (∀ p ∈ papers, existing p.title ≠ none) →
      (papers.foldl (persistStep false existing store0) st).stored =
        st.stored := by
  induction papers with
  | nil => intro st _; simp
  | cons p rest ih =>
    intro st hall
    rw [List.foldl_cons]
    rw [ih _ (fun q hq => hall q (List.mem_cons_of_mem _ hq))]
    unfold persistStep
    by_cases hseen : p.title ∈ st.seen
    · simp [hseen]
    · simp only [if_neg hseen]
      cases hex : existing p.title with
      | none => exact absurd hex (hall p (List.mem_cons_self _ _))
      | some status => simp

/-- C7: rerunning PERSIST over the same batch, with the snapshot taken from
the store left by the first run and force-update unset, stores zero new
records — every incoming title already exists in that snapshot and is
skipped, whether or not the stored record carries an artifact. -/
theorem c7_second_run_stores_nothing (force1 : Bool)
    (papers store0 : List Paper) :
    (store_papers false false papers
      (get_existing_papers
        (store_papers force1 false papers (get_existing_papers store0) store0).1)
      (store_papers force1 false papers (get_existing_papers store0) store0).1).2.1
      = [] := by
  have hinit : PersistInv store0 ⟨store0, [], [], 0⟩ := by
    refine ⟨by simp, fun t ht => ht, fun t ht => Or.inl ht⟩
  have hinv := persistFold_inv force1 store0 papers _ hinit
  have hseen := persistFold_seen_covers force1 (get_existing_papers store0)
    store0 papers ⟨store0, [], [], 0⟩
  set final1 := papers.foldl
    (persistStep force1 (get_existing_papers store0) store0)
    ⟨store0, [], [], 0⟩ with hfinal1
  have hstore1 :
      (store_papers force1 false papers (get_existing_papers store0) store0).1 =
        final1.work := by
    simp [store_papers, hfinal1]
  rw [hstore1]
  have hall : ∀ p ∈ papers, get_existing_papers final1.work p.title ≠ none := by
    intro p hp hnone
    have hmem : p.title ∈ final1.work.map Paper.title :=
      hinv.1 p.title (hseen p hp)
    exact (get_existing_papers_eq_none final1.work p.title).mp hnone hmem
  simp only [store_papers]
  rw [if_neg (by simp)]
  exact persistFold_no_new_stores (get_existing_papers final1.work)
    final1.work papers _ hall

/-- Outcome of one `aiohttp` GET: a status code plus body, or a raised
client error (transport failure, invalid or missing URL). -/
inductive HttpResp where
  | failed
  | resp (status : Nat) (body : String)
deriving DecidableEq, Repr

/-- Result of one `AsyncPDFManager.download_pdf` call: the boolean the
function returns, the papers table afterwards, the PDF directory contents
(record id to file body) afterwards, and how many GET requests the call
issued. -/
structure FetchResult where
  ok : Bool
  store : List Paper
  files : List (Nat × String)
  calls : Nat
deriving DecidableEq, Repr

/-- Deterministic artifact path `Settings.PDF_DIR / f"{paper.id}.pdf"`. -/
def pdfPathFor (p : Paper) : String :=
  "papers/pdf/" ++ toString p.id ++ ".pdf"

/-- Overwriting file write of `pdf_path.write_bytes`. -/
def fsWrite (files : List (Nat × String)) (id : Nat) (body : String) :
    List (Nat × String) :=
  if files.any (fun e => e.1 == id) then
    files.map (fun e => if e.1 == id then (id, body) else e)
  else files ++ [(id, body)]

/-- SQLAlchemy `db_session.merge` keyed on the primary key `id`: replace the
row with the same id, or insert the record when no row matches. -/
def dbMerge (store : List Paper) (p : Paper) : List Paper :=
  if store.any (fun q => q.id == p.id) then
    store.map (fun q => if q.id == p.id then p else q)
  else store ++ [p]

/-- `AsyncPDFManager.download_pdf` (pdf_manager.py:24-51). The GET on
`paper.url` is issued unconditionally — there is no empty-url guard; a
raised client error is swallowed and yields False. On status 200 the body
is written to `{id}.pdf`, then the function itself opens a database session,
sets `pdf_path` and `processed` on the record and commits it (merge); a
database failure rolls that update back and yields False. Any non-200
status yields False with no retry. -/
def download_pdf (http : Option String → HttpResp) (dbFails : Bool)
    (store : List Paper) (paper : Paper) (files : List (Nat × String)) :
    FetchResult :=
  match http paper.url with
  | .failed => ⟨false, store, files, 1⟩
  | .resp status body =>
    if status = 200 then
      let files1 := fsWrite files paper.id body
      if dbFails then ⟨false, store, files1, 1⟩
      else
        let p1 := { paper with pdf_path := some (pdfPathFor paper), processed := 1 }
        ⟨true, dbMerge store p1, files1, 1⟩
    else ⟨false, store, files, 1⟩

/-- C4 counterexample: a record with no URL. The claim says no network call
is issued for it, but `download_pdf` has no empty-url guard and issues its
one GET regardless (the client error is what produces the None outcome). -/
theorem c4_counterexample :
    (download_pdf (fun _ => .failed) false [] { id := 7, title := "X" } []).calls
      = 1 ∧
    Paper.url { id := 7, title := "X" } = none := by
  exact ⟨rfl, rfl⟩

/-- C4 amended: every call issues exactly one retrieval, empty url or not
(an empty or invalid URL makes that retrieval fail, giving outcome False);
on status 200 the body is written to the deterministic `{id}.pdf` path and
the call returns True — a success flag, the path itself being recorded on
the stored record rather than returned; on any non-200 status or transport
error the outcome is False, with no second retrieval. -/
theorem c4_fetch_outcomes (http : Option String → HttpResp) (dbFails : Bool)
    (store : List Paper) (paper : Paper) (files : List (Nat × String)) :
    (download_pdf http dbFails store paper files).calls = 1 ∧
    (∀ body, http paper.url = .resp 200 body → dbFails = false →
      (download_pdf http dbFails store paper files).ok = true ∧
      (download_pdf http dbFails store paper files).files =
        fsWrite files paper.id body) ∧
    (∀ status body, http paper.url = .resp status body → status ≠ 200 →
      (download_pdf http dbFails store paper files).ok = false ∧
      (download_pdf http dbFails store paper files).files = files) ∧
    (http paper.url = .failed →
      (download_pdf http dbFails store paper files).ok = false ∧
      (download_pdf http dbFails store paper files).files = files) := by
  refine ⟨?_, ?_, ?_, ?_⟩
  · unfold download_pdf
    cases http paper.url with
    | failed => rfl
    | resp status body =>
      by_cases h200 : status = 200
      · by_cases hdb : dbFails
        · simp [h200, hdb]
        · simp [h200, hdb]
      · simp [h200]
  · intro body hresp hdb
    subst hdb
    simp [download_pdf, hresp]
  · intro status body hresp h200
    simp [download_pdf, hresp, h200]
  · intro hresp
    simp [download_pdf, hresp]

/-- Witness for C4 at a concrete 200 response. -/
theorem c4_fetch_outcomes_witness :
    (download_pdf (fun _ => .resp 200 "B") false []
      { id := 3, title := "Z", url := some "u" } []).ok = true ∧
    (download_pdf (fun _ => .resp 200 "B") false []
      { id := 3, title := "Z", url := some "u" } []).files =
      fsWrite [] 3 "B" := by
  have h := c4_fetch_outcomes (fun _ => .resp 200 "B") false []
    { id := 3, title := "Z", url := some "u" } []
  exact h.2.1 "B" rfl rfl

/-- C5 counterexample: a successful fetch run by the Fetcher itself changes
the persisted record — `download_pdf` opens its own session, sets
`pdf_path` and `processed` and commits — contradicting the claim that the
Fetcher never mutates the Store. -/
theorem c5_counterexample :
    (download_pdf (fun _ => .resp 200 "B") false
      [{ id := 7, title := "X", url := some "u" }]
      { id := 7, title := "X", url := some "u" } []).store =
      [{ id := 7, title := "X", url := some "u"
         pdf_path := some "papers/pdf/7.pdf", processed := 1 }] ∧
    [({ id := 7, title := "X", url := some "u"
        pdf_path := some "papers/pdf/7.pdf", processed := 1 } : Paper)] ≠
      [{ id := 7, title := "X", url := some "u" }] := by
  exact ⟨by decide, by decide⟩

/-- C5 amended: the Fetcher leaves the Store untouched on every failed path
(transport error, non-200 status, or failing database update), but on a
successful fetch it is the Fetcher itself that marks the artifact: it merges
the record with `pdf_path` set to the deterministic path and `processed = 1`
and commits, the caller in main.py then repeating a second merge of its own. -/
theorem c5_fetcher_store_effect (http : Option String → HttpResp)
    (store : List Paper) (paper : Paper) (files : List (Nat × String)) :
    (http paper.url = .failed →
      (download_pdf http false store paper files).store = store) ∧
    (∀ status body, http paper.url = .resp status body → status ≠ 200 →
      (download_pdf http false store paper files).store = store) ∧
    (∀ body, http paper.url = .resp 200 body →
      (download_pdf http true store paper files).store = store) ∧
    (∀ body, http paper.url = .resp 200 body →
      (download_pdf http false store paper files).store =
        dbMerge store
          { paper with pdf_path := some (pdfPathFor paper), processed := 1 }) := by
  refine ⟨?_, ?_, ?_, ?_⟩
  · intro hresp
    simp [download_pdf, hresp]
  · intro status body hresp h200
    simp [download_pdf, hresp, h200]
  · intro body hresp
    simp [download_pdf, hresp]
  · intro body hresp
    simp [download_pdf, hresp]

/-- Witness for C5: a failed transport leaves the store unchanged. -/
theorem c5_fetcher_store_effect_witness :
    (download_pdf (fun _ => .failed) false
      [{ id := 7, title := "X" }] { id := 7, title := "X" } []).store =
      [{ id := 7, title := "X" }] := by
  have h := c5_fetcher_store_effect (fun _ => .failed)
    [{ id := 7, title := "X" }] { id := 7, title := "X" } []
  exact h.1 rfl

/-- State of the admission gate guarding artifact retrievals: permits held,
the FIFO queue of waiting task ids, and the histories of admissions and
arrivals. -/
structure GateState where
  inFlight : Nat
  waiting : List Nat
  admitted : List Nat
  arrived : List Nat
deriving DecidableEq, Repr

/-- Width of the gate: `asyncio.Semaphore(5)` in `AsyncPDFManager.__init__`
(pdf_manager.py:16); every `download_pdf` body runs inside it
(pdf_manager.py:26). Modelled from the spec and the asyncio semaphore
contract, since the semaphore implementation is library code outside src. -/
def downloadGateWidth : Nat := 5

/-- Transition relation of the counting semaphore with FIFO hand-off: a task
arrives and queues; the head of the queue is admitted only while fewer than
`width` retrievals are in flight; a finished retrieval releases its permit. -/
inductive GateStep (width : Nat) : GateState → GateState → Prop where
  | arrive (s : GateState) (t : Nat) :
      GateStep width s
        { s with waiting := s.waiting ++ [t], arrived := s.arrived ++ [t] }
  | grant (s : GateState) (t : Nat) (rest : List Nat) :
      s.waiting = t :: rest → s.inFlight < width →
      GateStep width s ⟨s.inFlight + 1, rest, s.admitted ++ [t], s.arrived⟩
  | free (s : GateState) :
      0 < s.inFlight →
      GateStep width s { s with inFlight := s.inFlight - 1 }

/-- Gate state before any retrieval starts. -/
def initGate : GateState := ⟨0, [], [], []⟩

/-- States the gate can reach during a FETCH_ARTIFACTS run. -/
def GateReachable (width : Nat) : GateState → Prop :=
  Relation.ReflTransGen (GateStep width) initGate

/-- C6: in every reachable gate state the number of in-flight retrievals is
at most the configured width (5), and admissions are FIFO — the admission
history followed by the current queue is exactly the arrival history. -/
theorem c6_gate_bound_and_fifo (s : GateState)
    (h : GateReachable downloadGateWidth s) :
    s.inFlight ≤ downloadGateWidth ∧ s.admitted ++ s.waiting = s.arrived := by
  induction h with
  | refl => exact ⟨Nat.zero_le _, rfl⟩
  | tail hsteps hstep ih =>
    obtain ⟨ihb, ihf⟩ := ih
    cases hstep with
    | arrive t =>
      refine ⟨ihb, ?_⟩
      simp [← ihf]
    | grant t rest hq hlt =>
      refine ⟨hlt, ?_⟩
      simp [← ihf, hq]
    | free hpos => exact ⟨Nat.le_trans (Nat.sub_le _ _) ihb, ihf⟩

/-- Witness for C6 at a concrete reachable state: one task arrived and was
admitted. -/
theorem c6_gate_bound_and_fifo_witness :
    GateState.inFlight ⟨1, [], [3], [3]⟩ ≤ downloadGateWidth ∧
    GateState.admitted ⟨1, [], [3], [3]⟩ ++ GateState.waiting ⟨1, [], [3], [3]⟩ =
      GateState.arrived ⟨1, [], [3], [3]⟩ := by
  refine c6_gate_bound_and_fifo ⟨1, [], [3], [3]⟩ ?_
  have h1 : GateStep downloadGateWidth initGate ⟨0, [3], [], [3]⟩ := by
    have := @GateStep.arrive downloadGateWidth initGate 3
    simpa [initGate] using this
  have h2 : GateStep downloadGateWidth ⟨0, [3], [], [3]⟩ ⟨1, [], [3], [3]⟩ := by
    have := @GateStep.grant downloadGateWidth ⟨0, [3], [], [3]⟩ 3 [] rfl
      (by simp [downloadGateWidth])
    simpa using this
  exact Relation.ReflTransGen.tail (Relation.ReflTransGen.single h1) h2

/-- Python `metadata.get(k)`: the stored value, or None when absent. -/
def dictGet (m : List (String × JsonVal)) (k : String) : JsonVal :=
  match m.lookup k with
  | some v => v
  | none => .null

/-- Python `metadata.get(k, d)` with an explicit default. -/
def dictGetD (m : List (String × JsonVal)) (k : String) (d : JsonVal) : JsonVal :=
  match m.lookup k with
  | some v => v
  | none => d

/-- `Paper.validate_metadata` (database.py:43-73): rebuild the metadata
mapping from scratch with only the keys recognized for the record's source,
reading each from the incoming mapping (missing ones become null, missing
list-valued ones the empty list); any other incoming key is dropped. An
unrecognized source yields the empty mapping. -/
def validate_metadata (source : String) (metadata : List (String × JsonVal)) :
    List (String × JsonVal) :=
  if source = "arxiv" then
    [("arxiv_id", dictGet metadata "arxiv_id"),
      ("categories", dictGetD metadata "categories" (.arr [])),
      ("comments", dictGet metadata "comments"),
      ("report_no", dictGet metadata "report-no")]
  else if source = "zotero" then
    [("zotero_key", dictGet metadata "zotero_key"),
      ("volume", dictGet metadata "volume"),
      ("issue", dictGet metadata "issue"),
      ("pages", dictGet metadata "pages"),
      ("tags", dictGetD metadata "tags" (.arr []))]
  else []

/-- C9: whatever mapping is offered at write time, the stored metadata keys
are a function of the source alone — exactly the four arxiv keys for arxiv
records and the five zotero keys for zotero records — so every field not
recognized for that source is dropped. -/
theorem c9_metadata_keys_pure (metadata : List (String × JsonVal)) :
    (validate_metadata "arxiv" metadata).map Prod.fst =
      ["arxiv_id", "categories", "comments", "report_no"] ∧
    (validate_metadata "zotero" metadata).map Prod.fst =
      ["zotero_key", "volume", "issue", "pages", "tags"] := by
  exact ⟨rfl, by simp [validate_metadata]⟩

/-- Python `str.lower()` on the ASCII source names used here. -/
def pyLower (s : String) : String := ⟨s.toList.map Char.toLower⟩

/-- Python ValueError raised by the collection interface. -/
inductive PyError where
  | valueError (msg : String)
deriving DecidableEq, Repr

/-- `PaperCollector.collect_papers` (collector.py:187-196): dispatch on the
lower-cased source name; the per-source network collection is abstracted as
the two result batches. Any other source raises ValueError. -/
def collect_papers (arxivResult zoteroResult : List Paper) (source : String) :
    Except PyError (List Paper) :=
  if pyLower source = "arxiv" then .ok arxivResult
  else if pyLower source = "zotero" then .ok zoteroResult
  else .error (.valueError ("Unknown source: " ++ source))

/-- Outcome of `AsyncPaperManager.collect_all`: the returned pair (or the
propagated error) together with the papers table after the call. -/
structure CollectAllResult where
  outcome : Except PyError (Nat × List Paper)
  store : List Paper
deriving Repr

/-- `AsyncPaperManager.collect_all` (collector.py:266-282): snapshot the
existing papers, re-check the source name (raising ValueError for anything
but arxiv/zotero before any store write), collect, then store the batch. -/
def collect_all (arxivResult zoteroResult : List Paper)
    (force commitFails : Bool) (source : String) (store0 : List Paper) :
    CollectAllResult :=
  let existing := get_existing_papers store0
  if pyLower source = "arxiv" then
    let res := store_papers force commitFails arxivResult existing store0
    ⟨.ok (arxivResult.length, res.2.1), res.1⟩
  else if pyLower source = "zotero" then
    let res := store_papers force commitFails zoteroResult existing store0
    ⟨.ok (zoteroResult.length, res.2.1), res.1⟩
  else ⟨.error (.valueError ("Unknown source: " ++ source)), store0⟩

/-- C10: any source other than "arxiv" and "zotero" (case-insensitively)
makes `collect_papers` raise ValueError, and `collect_all` propagates the
same error while leaving the store exactly as it was — no record stored. -/
theorem c10_unknown_source_rejected (arxivResult zoteroResult : List Paper)
    (force commitFails : Bool) (source : String) (store0 : List Paper)
    (ha : pyLower source ≠ "arxiv") (hz : pyLower source ≠ "zotero") :
    collect_papers arxivResult zoteroResult source =
      .error (.valueError ("Unknown source: " ++ source)) ∧
    (collect_all arxivResult zoteroResult force commitFails source store0).outcome =
      .error (.valueError ("Unknown source: " ++ source)) ∧
    (collect_all arxivResult zoteroResult force commitFails source store0).store =
      store0 := by
  refine ⟨?_, ?_, ?_⟩
  · simp [collect_papers, ha, hz]
  · simp [collect_all, ha, hz]
  · simp [collect_all, ha, hz]

/-- Witness for C10 at the concrete source "PubMed". -/
theorem c10_unknown_source_rejected_witness :
    collect_papers [] [] "PubMed" =
      .error (.valueError ("Unknown source: " ++ "PubMed")) ∧
    (collect_all [] [] false false "PubMed" []).outcome =
      .error (.valueError ("Unknown source: " ++ "PubMed")) ∧
    (collect_all [] [] false false "PubMed" []).store = [] := by
  exact c10_unknown_source_rejected [] [] false false "PubMed" []
    (by decide) (by decide)

end Sora
